import Mathlib

/-!
Shallow embedding of the rust-anaconda library (src/src/lib.rs), a thin FFI
wrapper around the external rustfmt crate.  The embedding models:

  - lookup_project_file : the ancestor-directory walk searching for a
    regular file named rustfmt.toml;
  - resolve_config : read and parse the located file, or fall back to the
    default configuration when none is found;
  - match_cli_path_or_file : explicit-config-path priority over the
    fallback input path;
  - execute : the orchestrator, which resolves the configuration, forces
    write_mode to Plain, runs the external formatter and maps its Summary
    to a status code via process_summary;
  - the FFI string helpers c_str_to_safe_string, to_c_str and
    free_c_char_mem, and the exported format entry point.

Filesystem and external-crate behaviour is passed in explicitly through an
environment record so that every definition is a pure, executable function
of its inputs.
-/

namespace RustAnaconda

/-- A canonical absolute filesystem path, stored as its components listed
from the innermost component outward to the root: the empty list is the
filesystem root, and the parent of a non-root path is its tail.  With this
representation the pop operation of the source (drop the last component)
is the list tail. -/
abbrev FsPath := List String

/-- Result of the external call fs::metadata on a path, as observed by the
source code: a regular file, a directory (or other non-file object), an
error of kind NotFound, or any other filesystem error (permission denied,
I/O error, ...). -/
inductive MetaResult where
  | isFile
  | isDir
  | notFound
  | otherErr
  deriving DecidableEq, Repr

/-- The write_mode configuration option of the external rustfmt crate
(modelled from the crate of the era; the source only ever names Plain). -/
inductive WriteMode where
  | Replace
  | Overwrite
  | NewFile
  | Plain
  | Display
  | Diff
  | Coverage
  | Checkstyle
  deriving DecidableEq, Repr

/-- The external rustfmt Config value, modelled with a representative
subset of its fields: the one the source mutates (write_mode) and a few
it does not touch (skip_children, verbose, max_width, hard_tabs). -/
structure Config where
  write_mode : WriteMode
  skip_children : Bool
  verbose : Bool
  max_width : Nat
  hard_tabs : Bool
  deriving DecidableEq, Repr

/-- Config::default of the external crate (field values modelled from the
crate of the era; the claims only depend on this being the default). -/
def Config.default : Config :=
  { write_mode := WriteMode.Replace
  , skip_children := false
  , verbose := false
  , max_width := 100
  , hard_tabs := false }

/-- The Summary returned by the external rustfmt run: which error classes
the formatting call reported. -/
structure Summary where
  operational : Bool
  parsing : Bool
  formatting : Bool
  deriving DecidableEq, Repr

def Summary.has_operational_errors (s : Summary) : Bool := s.operational

def Summary.has_parsing_errors (s : Summary) : Bool := s.parsing

def Summary.has_formatting_errors (s : Summary) : Bool := s.formatting

def Summary.has_no_errors (s : Summary) : Bool :=
  !s.operational && !s.parsing && !s.formatting

/-- The environment of external effects the library depends on:
canonicalization (fs::canonicalize, applied at lookup entry; for a
relative starting path the source first joins it onto the current working
directory, which is subsumed in this mapping to a canonical absolute
path), fs::metadata, opening and reading a file to a string
(File::open followed by read_to_string, merged into one fallible step),
Config::from_toml of the external crate, and env::current_dir. -/
structure FsEnv where
  canon : FsPath → Except Unit FsPath
  meta : FsPath → MetaResult
  readFile : FsPath → Except Unit String
  fromToml : String → Config
  cwd : FsPath

/-- The path of the candidate config file directly inside directory d:
the join current.join of the source. -/
def configFileIn (d : FsPath) : FsPath := "rustfmt.toml" :: d

/-- Path::parent, used by execute on the explicit config path: none at the
filesystem root, otherwise the tail. -/
def parentDir : FsPath → Option FsPath
  | [] => none
  | _ :: p => some p

/-- The search loop of lookup_project_file, lines 66-86 of the source:
probe fs::metadata on the config file inside the current directory;
a regular file is returned at once; an error other than NotFound aborts
the search; a directory of that name or NotFound continues with the
parent, and when the current directory has no parent the search reports
not found.  Besides the result this embedding also returns the list of
probed paths, in probe order, so that short-circuiting is statable. -/
def lookupLoop (meta : FsPath → MetaResult) : FsPath → List FsPath × Except Unit (Option FsPath)
  | [] =>
    match meta (configFileIn []) with
    | MetaResult.isFile => ([configFileIn []], Except.ok (some (configFileIn [])))
    | MetaResult.otherErr => ([configFileIn []], Except.error ())
    | MetaResult.isDir => ([configFileIn []], Except.ok none)
    | MetaResult.notFound => ([configFileIn []], Except.ok none)
  | x :: parent =>
    match meta (configFileIn (x :: parent)) with
    | MetaResult.isFile =>
        ([configFileIn (x :: parent)], Except.ok (some (configFileIn (x :: parent))))
    | MetaResult.otherErr => ([configFileIn (x :: parent)], Except.error ())
    | MetaResult.isDir =>
        let r := lookupLoop meta parent
        (configFileIn (x :: parent) :: r.1, r.2)
    | MetaResult.notFound =>
        let r := lookupLoop meta parent
        (configFileIn (x :: parent) :: r.1, r.2)

/-- lookup_project_file, lines 57-87 of the source: canonicalize the
starting directory (propagating any canonicalization error), then walk
the ancestor chain with the search loop. -/
def lookup_project_file (e : FsEnv) (dir : FsPath) : Except Unit (Option FsPath) :=
  match e.canon dir with
  | Except.error u => Except.error u
  | Except.ok cur => (lookupLoop e.meta cur).2

/-- The list of paths probed by fs::metadata during lookup_project_file,
in probe order (empty when canonicalization already fails). -/
def lookupProbes (e : FsEnv) (dir : FsPath) : List FsPath :=
  match e.canon dir with
  | Except.error _ => []
  | Except.ok cur => (lookupLoop e.meta cur).1

/-- resolve_config, lines 45-55 of the source: lookup the project file;
not found yields the default Config with no path and no error; a found
file is opened and read (errors propagate) and parsed by the external
Config::from_toml. -/
def resolve_config (e : FsEnv) (dir : FsPath) : Except Unit (Config × Option FsPath) :=
  match lookup_project_file e dir with
  | Except.error u => Except.error u
  | Except.ok none => Except.ok (Config.default, none)
  | Except.ok (some path) =>
    match e.readFile path with
    | Except.error u => Except.error u
    | Except.ok toml => Except.ok (e.fromToml toml, some path)

/-- match_cli_path_or_file, lines 32-43 of the source: with an explicit
config path, resolve from it first (errors propagate); if that search
produced a path the result is returned outright; otherwise, and when no
explicit path was given, resolve from the input file path. -/
def match_cli_path_or_file (e : FsEnv) (config_path : Option FsPath) (input_file : FsPath) :
    Except Unit (Config × Option FsPath) :=
  match config_path with
  | some config_file =>
    match resolve_config e config_file with
    | Except.error u => Except.error u
    | Except.ok (toml, some path) => Except.ok (toml, some path)
    | Except.ok (_, none) => resolve_config e input_file
  | none => resolve_config e input_file

/-- process_summary, lines 110-127 of the source: map the formatter
Summary to a status code, first match wins: operational errors give 1,
then parsing errors 2, then formatting errors 3, otherwise 0 (where the
source asserts has_no_errors, which holds by construction).  The stdout
flush is I/O without influence on the returned code. -/
def process_summary (error_summary : Summary) : Int :=
  if error_summary.has_operational_errors then 1
  else if error_summary.has_parsing_errors then 2
  else if error_summary.has_formatting_errors then 3
  else 0

/-- execute, lines 89-108 of the source.  The explicit config path, when
present, is replaced by its parent directory when it is a file (and drops
out entirely when a file has no parent).  Configuration resolution failure
hits the expect call of line 101 and the process panics: this is modelled
as the error branch carrying the expect message.  On success write_mode is
forced to Plain and the external run maps through process_summary.  The
run argument is the external rustfmt run on the text buffer input. -/
def execute (e : FsEnv) (run : String → Config → Summary) (buffer : String)
    (cfg_path : Option FsPath) : Except String Int :=
  let config_path : Option FsPath :=
    cfg_path.bind fun dir =>
      if e.meta dir = MetaResult.isFile then parentDir dir else some dir
  match match_cli_path_or_file e config_path e.cwd with
  | Except.error _ => Except.error "Error resolving config"
  | Except.ok (config, _) =>
    let config := { config with write_mode := WriteMode.Plain }
    Except.ok (process_summary (run buffer config))

/-- The ancestor chain of a directory, from the directory itself up to and
including the filesystem root: exactly the directories whose config file
the search loop may probe. -/
def ancestors : FsPath → List FsPath
  | [] => [([] : FsPath)]
  | x :: parent => (x :: parent) :: ancestors parent

-- FFI string model.  A foreign C string pointer is modelled as none for
-- the null pointer, or some bs for a non-null pointer to the byte
-- sequence bs that precedes the first nul terminator.

/-- Unicode replacement character U+FFFD emitted by lossy decoding. -/
def replChar : Char := Char.ofNat 0xFFFD

/-- Whether a byte is a UTF-8 continuation byte. -/
def isCont (b : Nat) : Bool := 0x80 ≤ b && b ≤ 0xBF

/-- Whether the first continuation byte of a three-byte sequence headed by
b is in range (the E0 and ED rows restrict it, excluding overlong forms
and surrogates). -/
def cont3ok (b b1 : Nat) : Bool :=
  if b = 0xE0 then 0xA0 ≤ b1 && b1 ≤ 0xBF
  else if b = 0xED then 0x80 ≤ b1 && b1 ≤ 0x9F
  else isCont b1

/-- Whether the first continuation byte of a four-byte sequence headed by
b is in range (the F0 and F4 rows restrict it, excluding overlong forms
and values beyond U+10FFFF). -/
def cont4ok (b b1 : Nat) : Bool :=
  if b = 0xF0 then 0x90 ≤ b1 && b1 ≤ 0xBF
  else if b = 0xF4 then 0x80 ≤ b1 && b1 ≤ 0x8F
  else isCont b1

/-- Total UTF-8 decoding with replacement, modelling the external
String::from_utf8_lossy used by CStr::to_string_lossy: well-formed
sequences decode to their scalar value, anything else contributes a
replacement character and the scan resumes after the consumed prefix.
Total on every byte list. -/
def utf8DecodeLossy : List Nat → List Char
  | [] => []
  | b :: rest =>
    if b ≤ 0x7F then Char.ofNat b :: utf8DecodeLossy rest
    else if 0xC2 ≤ b && b ≤ 0xDF then
      match rest with
      | [] => [replChar]
      | b1 :: rest1 =>
        if isCont b1 then
          Char.ofNat ((b - 0xC0) * 0x40 + (b1 - 0x80)) :: utf8DecodeLossy rest1
        else replChar :: utf8DecodeLossy (b1 :: rest1)
    else if 0xE0 ≤ b && b ≤ 0xEF then
      match rest with
      | [] => [replChar]
      | b1 :: rest1 =>
        if cont3ok b b1 then
          match rest1 with
          | [] => [replChar]
          | b2 :: rest2 =>
            if isCont b2 then
              Char.ofNat ((b - 0xE0) * 0x1000 + (b1 - 0x80) * 0x40 + (b2 - 0x80))
                :: utf8DecodeLossy rest2
            else replChar :: utf8DecodeLossy (b2 :: rest2)
        else replChar :: utf8DecodeLossy (b1 :: rest1)
    else if 0xF0 ≤ b && b ≤ 0xF4 then
      match rest with
      | [] => [replChar]
      | b1 :: rest1 =>
        if cont4ok b b1 then
          match rest1 with
          | [] => [replChar]
          | b2 :: rest2 =>
            if isCont b2 then
              match rest2 with
              | [] => [replChar]
              | b3 :: rest3 =>
                if isCont b3 then
                  Char.ofNat ((b - 0xF0) * 0x40000 + (b1 - 0x80) * 0x1000
                      + (b2 - 0x80) * 0x40 + (b3 - 0x80)) :: utf8DecodeLossy rest3
                else replChar :: utf8DecodeLossy (b3 :: rest3)
            else replChar :: utf8DecodeLossy (b2 :: rest2)
        else replChar :: utf8DecodeLossy (b1 :: rest1)
    else replChar :: utf8DecodeLossy rest

/-- The owned Rust String produced by lossy decoding of a byte buffer. -/
def lossyString (bytes : List Nat) : String := String.mk (utf8DecodeLossy bytes)

/-- c_str_to_safe_string, lines 135-140 of the source: the assert makes a
null pointer a panic (modelled as the error branch carrying the assertion
message); a non-null pointer decodes with to_string_lossy, which is total. -/
def c_str_to_safe_string (c_str : Option (List Nat)) : Except String String :=
  match c_str with
  | none => Except.error "assertion failed: !c_str.is_null()"
  | some bytes => Except.ok (lossyString bytes)

/-- to_c_str, lines 150-155 of the source, on the byte content of the Rust
String: CString::new fails on an interior nul byte (the unwrap then
panics, modelled as the error branch), otherwise the allocation handed to
the caller is the bytes followed by the nul terminator. -/
def to_c_str (s : List Nat) : Except String (List Nat) :=
  if 0 ∈ s then Except.error "NulError" else Except.ok (s ++ [0])

/-- free_c_char_mem, lines 170-180 of the source: a null pointer is an
immediate no-op (result none); otherwise CStr::from_ptr measures the
bytes up to and including the first nul and the Vec is rebuilt with that
length, which is the reclaimed allocation size (result some length). -/
def free_c_char_mem : Option (List Nat) → Option Nat
  | none => none
  | some mem => some ((mem.takeWhile (fun b => b != 0)).length + 1)

/-- format, lines 189-193 of the source: decode the path pointer, then the
code pointer (each asserting non-null), build the config path from the
decoded string (PathBuf::from, modelled by the pathOf argument) and
delegate to execute.  A panic in either decode propagates. -/
def format (e : FsEnv) (run : String → Config → Summary) (pathOf : String → FsPath)
    (code path : Option (List Nat)) : Except String Int :=
  match c_str_to_safe_string path with
  | Except.error m => Except.error m
  | Except.ok pstr =>
    match c_str_to_safe_string code with
    | Except.error m => Except.error m
    | Except.ok buffer => execute e run buffer (some (pathOf pstr))

theorem mem_ancestors_length_le (p : FsPath) : ∀ d ∈ ancestors p, d.length ≤ p.length := by
  induction p with
  | nil => intro d hd; simp [ancestors] at hd; simp [hd]
  | cons x q ih =>
    intro d hd
    simp only [ancestors, List.mem_cons] at hd
    rcases hd with rfl | hd
    · exact le_refl _
    · exact le_trans (ih d hd) (by simp)

theorem ancestors_split_post_lt (cur : FsPath) (pre post : List FsPath) (a : FsPath)
    (h : ancestors cur = pre ++ a :: post) : ∀ d ∈ post, d.length < a.length := by
  induction cur generalizing pre with
  | nil =>
    cases pre with
    | nil =>
      simp [ancestors] at h
      obtain ⟨rfl, rfl⟩ := h
      simp
    | cons q pre2 => simp [ancestors] at h
  | cons x p ih =>
    cases pre with
    | nil =>
      simp [ancestors] at h
      obtain ⟨rfl, rfl⟩ := h
      intro d hd
      have := mem_ancestors_length_le p d hd
      simp; omega
    | cons q pre2 =>
      simp [ancestors] at h
      exact ih pre2 h.2

theorem ancestors_split_pre_gt (cur : FsPath) (pre post : List FsPath) (a : FsPath)
    (h : ancestors cur = pre ++ a :: post) : ∀ b ∈ pre, a.length < b.length := by
  induction cur generalizing pre with
  | nil =>
    cases pre with
    | nil => intro b hb; simp at hb
    | cons q pre2 => simp [ancestors] at h
  | cons x p ih =>
    cases pre with
    | nil => intro b hb; simp at hb
    | cons q pre2 =>
      simp [ancestors] at h
      obtain ⟨rfl, h2⟩ := h
      intro b hb
      rcases List.mem_cons.mp hb with rfl | hb
      · have haa : a ∈ ancestors p := by
          rw [h2]; exact List.mem_append_right _ (List.mem_cons_self _ _)
        have := mem_ancestors_length_le p a haa
        simp; omega
      · exact ih pre2 h2 b hb

theorem lookupLoop_all_continue (meta : FsPath → MetaResult) (cur : FsPath)
    (h : ∀ d ∈ ancestors cur,
      meta (configFileIn d) = MetaResult.isDir ∨ meta (configFileIn d) = MetaResult.notFound) :
    lookupLoop meta cur = ((ancestors cur).map configFileIn, Except.ok none) := by
  induction cur with
  | nil =>
    rcases h [] (by simp [ancestors]) with h0 | h0 <;> simp [lookupLoop, ancestors, h0]
  | cons x p ih =>
    have hrest := ih (fun d hd => h d (by simp [ancestors]; right; exact hd))
    rcases h (x :: p) (by simp [ancestors]) with h0 | h0 <;>
      simp [lookupLoop, ancestors, h0, hrest]

theorem lookupLoop_first_hit (meta : FsPath → MetaResult) (cur : FsPath)
    (pre post : List FsPath) (a : FsPath)
    (hsplit : ancestors cur = pre ++ a :: post)
    (hpre : ∀ d ∈ pre,
      meta (configFileIn d) = MetaResult.isDir ∨ meta (configFileIn d) = MetaResult.notFound)
    (ha : meta (configFileIn a) = MetaResult.isFile) :
    lookupLoop meta cur = ((pre ++ [a]).map configFileIn, Except.ok (some (configFileIn a))) := by
  induction cur generalizing pre with
  | nil =>
    cases pre with
    | nil =>
      simp [ancestors] at hsplit
      obtain ⟨rfl, rfl⟩ := hsplit
      simp [lookupLoop, ha]
    | cons q pre2 => simp [ancestors] at hsplit
  | cons x p ih =>
    cases pre with
    | nil =>
      simp [ancestors] at hsplit
      obtain ⟨rfl, rfl⟩ := hsplit
      simp [lookupLoop, ha]
    | cons q pre2 =>
      simp [ancestors] at hsplit
      obtain ⟨rfl, h2⟩ := hsplit
      have hq := hpre (x :: p) (List.mem_cons_self _ _)
      have hrest := ih pre2 h2 (fun d hd => hpre d (List.mem_cons_of_mem _ hd))
      rcases hq with h0 | h0 <;> simp [lookupLoop, h0, hrest]

theorem lookupLoop_first_err (meta : FsPath → MetaResult) (cur : FsPath)
    (pre post : List FsPath) (a : FsPath)
    (hsplit : ancestors cur = pre ++ a :: post)
    (hpre : ∀ d ∈ pre,
      meta (configFileIn d) = MetaResult.isDir ∨ meta (configFileIn d) = MetaResult.notFound)
    (ha : meta (configFileIn a) = MetaResult.otherErr) :
    lookupLoop meta cur = ((pre ++ [a]).map configFileIn, Except.error ()) := by
  induction cur generalizing pre with
  | nil =>
    cases pre with
    | nil =>
      simp [ancestors] at hsplit
      obtain ⟨rfl, rfl⟩ := hsplit
      simp [lookupLoop, ha]
    | cons q pre2 => simp [ancestors] at hsplit
  | cons x p ih =>
    cases pre with
    | nil =>
      simp [ancestors] at hsplit
      obtain ⟨rfl, rfl⟩ := hsplit
      simp [lookupLoop, ha]
    | cons q pre2 =>
      simp [ancestors] at hsplit
      obtain ⟨rfl, h2⟩ := hsplit
      have hq := hpre (x :: p) (List.mem_cons_self _ _)
      have hrest := ih pre2 h2 (fun d hd => hpre d (List.mem_cons_of_mem _ hd))
      rcases hq with h0 | h0 <;> simp [lookupLoop, h0, hrest]

/-- C2: for every starting directory whose ancestor chain (inclusive) holds
exactly one regular file named rustfmt.toml, and on which no probe reports a
filesystem error before that file is reached, the search returns that file
inside the canonicalized chain, and it short-circuits: the probes are exactly
those from the start down to the match, so no ancestor closer to the root is
probed. -/
theorem lookup_unique_file_found (e : FsEnv) (dir cur : FsPath)
    (pre post : List FsPath) (a : FsPath)
    (hcanon : e.canon dir = Except.ok cur)
    (hsplit : ancestors cur = pre ++ a :: post)
    (ha : e.meta (configFileIn a) = MetaResult.isFile)
    (huniq : ∀ d ∈ pre ++ post, e.meta (configFileIn d) ≠ MetaResult.isFile)
    (hnoerr : ∀ d ∈ pre, e.meta (configFileIn d) ≠ MetaResult.otherErr) :
    lookup_project_file e dir = Except.ok (some (configFileIn a)) ∧
    lookupProbes e dir = (pre ++ [a]).map configFileIn ∧
    ∀ d ∈ post, configFileIn d ∉ lookupProbes e dir := by
  have hpre : ∀ d ∈ pre,
      e.meta (configFileIn d) = MetaResult.isDir ∨ e.meta (configFileIn d) = MetaResult.notFound := by
    intro d hd
    have h1 := huniq d (List.mem_append_left _ hd)
    have h2 := hnoerr d hd
    cases hm : e.meta (configFileIn d) <;> simp_all
  have hloop := lookupLoop_first_hit e.meta cur pre post a hsplit hpre ha
  have hprobes : lookupProbes e dir = (pre ++ [a]).map configFileIn := by
    simp [lookupProbes, hcanon, hloop]
  refine ⟨?_, hprobes, ?_⟩
  · simp [lookup_project_file, hcanon, hloop]
  · intro d hd hmem
    rw [hprobes] at hmem
    rcases List.mem_map.mp hmem with ⟨b, hb, hbd⟩
    have hbd2 : b = d := by simpa [configFileIn] using hbd
    have hlen : b.length = d.length := by rw [hbd2]
    have hdlt := ancestors_split_post_lt cur pre post a hsplit d hd
    rcases List.mem_append.mp hb with hb2 | hb2
    · have hgt := ancestors_split_pre_gt cur pre post a hsplit b hb2
      omega
    · have hba : b = a := by simpa using hb2
      have : b.length = a.length := by rw [hba]
      omega

def witnessMetaFile : FsPath → MetaResult := fun p =>
  if p = configFileIn ["a"] then MetaResult.isFile else MetaResult.notFound

def witnessEnvFile : FsEnv :=
  { canon := fun p => Except.ok p
  , meta := witnessMetaFile
  , readFile := fun _ => Except.ok "max_width = 80"
  , fromToml := fun _ => Config.default
  , cwd := [] }

/-- Witness for C2 at a concrete two-level chain with the file one level up. -/
theorem lookup_unique_file_found_witness :
    lookup_project_file witnessEnvFile ["b", "a"] = Except.ok (some ["rustfmt.toml", "a"]) :=
  (lookup_unique_file_found witnessEnvFile ["b", "a"] ["b", "a"]
    [["b", "a"]] [([] : FsPath)] ["a"] rfl rfl (by decide) (by decide) (by decide)).1

/-- C6: when the expected config name exists only as a directory or not at
all at every candidate ancestor, the search returns not-found rather than an
error, and resolution yields the default Configuration with no error. -/
theorem lookup_dir_or_absent_default (e : FsEnv) (dir cur : FsPath)
    (hcanon : e.canon dir = Except.ok cur)
    (hall : ∀ d ∈ ancestors cur,
      e.meta (configFileIn d) = MetaResult.isDir ∨ e.meta (configFileIn d) = MetaResult.notFound) :
    lookup_project_file e dir = Except.ok none ∧
    resolve_config e dir = Except.ok (Config.default, none) := by
  have hloop := lookupLoop_all_continue e.meta cur hall
  constructor
  · simp [lookup_project_file, hcanon, hloop]
  · simp [resolve_config, lookup_project_file, hcanon, hloop]

def witnessMetaDir : FsPath → MetaResult := fun p =>
  if p = configFileIn ["a"] then MetaResult.isDir else MetaResult.notFound

def witnessEnvDir : FsEnv :=
  { canon := fun p => Except.ok p
  , meta := witnessMetaDir
  , readFile := fun _ => Except.ok ""
  , fromToml := fun _ => Config.default
  , cwd := [] }

/-- Witness for C6 at a concrete chain where the name is a directory at one
ancestor and absent elsewhere. -/
theorem lookup_dir_or_absent_default_witness :
    resolve_config witnessEnvDir ["b", "a"] = Except.ok (Config.default, none) :=
  (lookup_dir_or_absent_default witnessEnvDir ["b", "a"] ["b", "a"] rfl (by decide)).2

/-- C7: if an ancestor probe reports a filesystem error other than
NotFound, the search aborts immediately with that error as an operational
failure: it does not report not-found, resolution propagates the error, and
no ancestor closer to the root than the failing one is probed. -/
theorem lookup_probe_error_aborts (e : FsEnv) (dir cur : FsPath)
    (pre post : List FsPath) (a : FsPath)
    (hcanon : e.canon dir = Except.ok cur)
    (hsplit : ancestors cur = pre ++ a :: post)
    (hpre : ∀ d ∈ pre,
      e.meta (configFileIn d) = MetaResult.isDir ∨ e.meta (configFileIn d) = MetaResult.notFound)
    (ha : e.meta (configFileIn a) = MetaResult.otherErr) :
    lookup_project_file e dir = Except.error () ∧
    lookup_project_file e dir ≠ Except.ok none ∧
    resolve_config e dir = Except.error () ∧
    lookupProbes e dir = (pre ++ [a]).map configFileIn ∧
    ∀ d ∈ post, configFileIn d ∉ lookupProbes e dir := by
  have hloop := lookupLoop_first_err e.meta cur pre post a hsplit hpre ha
  have hlk : lookup_project_file e dir = Except.error () := by
    simp [lookup_project_file, hcanon, hloop]
  have hprobes : lookupProbes e dir = (pre ++ [a]).map configFileIn := by
    simp [lookupProbes, hcanon, hloop]
  refine ⟨hlk, by simp [hlk], by simp [resolve_config, hlk], hprobes, ?_⟩
  · intro d hd hmem
    rw [hprobes] at hmem
    rcases List.mem_map.mp hmem with ⟨b, hb, hbd⟩
    have hbd2 : b = d := by simpa [configFileIn] using hbd
    have hlen : b.length = d.length := by rw [hbd2]
    have hdlt := ancestors_split_post_lt cur pre post a hsplit d hd
    rcases List.mem_append.mp hb with hb2 | hb2
    · have hgt := ancestors_split_pre_gt cur pre post a hsplit b hb2
      omega
    · have hba : b = a := by simpa using hb2
      have : b.length = a.length := by rw [hba]
      omega

def witnessMetaErr : FsPath → MetaResult := fun p =>
  if p = configFileIn ["a"] then MetaResult.otherErr else MetaResult.notFound

def witnessEnvErr : FsEnv :=
  { canon := fun p => Except.ok p
  , meta := witnessMetaErr
  , readFile := fun _ => Except.ok ""
  , fromToml := fun _ => Config.default
  , cwd := [] }

/-- Witness for C7 at a concrete chain with a probe error one level up. -/
theorem lookup_probe_error_aborts_witness :
    lookup_project_file witnessEnvErr ["b", "a"] = Except.error () :=
  (lookup_probe_error_aborts witnessEnvErr ["b", "a"] ["b", "a"]
    [["b", "a"]] [([] : FsPath)] ["a"] rfl rfl (by decide) (by decide)).1

/-- C1: the mapping from formatter outcome to status code is total and
prioritized, first match wins: operational errors give 1, otherwise parsing
errors give 2, otherwise formatting errors give 3, otherwise 0; in
particular an outcome with both a parsing and a formatting error yields 2,
not 3. -/
theorem process_summary_priority (s : Summary) :
    (s.has_operational_errors = true → process_summary s = 1) ∧
    (s.has_operational_errors = false → s.has_parsing_errors = true → process_summary s = 2) ∧
    (s.has_operational_errors = false → s.has_parsing_errors = false →
      s.has_formatting_errors = true → process_summary s = 3) ∧
    (s.has_operational_errors = false → s.has_parsing_errors = false →
      s.has_formatting_errors = false → process_summary s = 0) ∧
    (s.has_operational_errors = false → s.has_parsing_errors = true →
      s.has_formatting_errors = true → process_summary s = 2 ∧ process_summary s ≠ 3) := by
  obtain ⟨o, p, f⟩ := s
  cases o <;> cases p <;> cases f <;> decide

/-- Witness for C1 at the outcome reporting both a parsing and a formatting
error. -/
theorem process_summary_priority_witness :
    process_summary ⟨false, true, true⟩ = 2 ∧ process_summary ⟨false, true, true⟩ ≠ 3 :=
  (process_summary_priority ⟨false, true, true⟩).2.2.2.2 rfl rfl rfl

/-- C3: with an explicit configuration path supplied, resolution searches
from that path first, from its parent directory when the path is a file;
a result found there is returned outright, independent of the fallback
input path, and only when the explicit search finds no configuration file
does resolution fall back to the input path. -/
theorem explicit_config_priority (e : FsEnv) (run : String → Config → Summary) (buffer : String)
    (x : String) (pp input : FsPath) (c : Config) (q : FsPath) :
    (∀ p : FsPath, e.meta p = MetaResult.isFile → p = x :: pp → e.meta pp ≠ MetaResult.isFile →
      execute e run buffer (some p) = execute e run buffer (some pp)) ∧
    (∀ p : FsPath, resolve_config e p = Except.ok (c, some q) →
      match_cli_path_or_file e (some p) input = Except.ok (c, some q)) ∧
    (∀ p : FsPath, resolve_config e p = Except.ok (c, none) →
      match_cli_path_or_file e (some p) input = resolve_config e input) := by
  refine ⟨?_, ?_, ?_⟩
  · intro p hf hp hd
    subst hp
    simp [execute, hf, hd, parentDir]
  · intro p h
    simp [match_cli_path_or_file, h]
  · intro p h
    simp [match_cli_path_or_file, h]

/-- Witness for C3: a concrete explicit path whose search finds a config
file wins outright over the fallback root. -/
theorem explicit_config_priority_witness :
    match_cli_path_or_file witnessEnvFile (some ["b", "a"]) [] =
      Except.ok (Config.default, some ["rustfmt.toml", "a"]) :=
  (explicit_config_priority witnessEnvFile (fun _ _ => ⟨false, false, false⟩) "" "b" ["a"] []
    Config.default ["rustfmt.toml", "a"]).2.1 ["b", "a"] (by rfl)

/-- C4 (amended): when configuration resolution fails with an unresolved
error, the FFI entry point does not proceed with a default configuration:
the expect call panics and the process aborts with the message
Error resolving config. -/
theorem execute_panics_on_resolve_error (e : FsEnv) (run : String → Config → Summary)
    (buffer : String) (cfg_path : Option FsPath)
    (h : match_cli_path_or_file e
        (cfg_path.bind fun dir =>
          if e.meta dir = MetaResult.isFile then parentDir dir else some dir) e.cwd =
      Except.error ()) :
    execute e run buffer cfg_path = Except.error "Error resolving config" := by
  simp [execute, h]

def envCanonErr : FsEnv :=
  { canon := fun _ => Except.error ()
  , meta := fun _ => MetaResult.notFound
  , readFile := fun _ => Except.error ()
  , fromToml := fun _ => Config.default
  , cwd := [] }

/-- C4 counterexample: in an environment whose resolution fails, execute
aborts with the expect panic instead of returning a status computed from the
default configuration, refuting the claim that the FFI entry point proceeds
with defaults. -/
theorem execute_no_default_on_resolve_error :
    execute envCanonErr (fun _ _ => ⟨false, false, false⟩) "fn main() {}" none =
      Except.error "Error resolving config" := by rfl

/-- Witness for the amended C4 at a concrete failing environment. -/
theorem execute_panics_on_resolve_error_witness :
    execute envCanonErr (fun _ _ => ⟨true, false, false⟩) "x" none =
      Except.error "Error resolving config" :=
  execute_panics_on_resolve_error envCanonErr (fun _ _ => ⟨true, false, false⟩) "x" none (by rfl)

def envVerbose : FsEnv :=
  { canon := fun p => Except.ok p
  , meta := fun p => if p = configFileIn [] then MetaResult.isFile else MetaResult.notFound
  , readFile := fun _ => Except.ok "verbose = true"
  , fromToml := fun _ => { Config.default with verbose := true, skip_children := true }
  , cwd := [] }

/-- C5 counterexample: with a resolved configuration whose file sets
verbose and skip_children, execute invokes the formatter with verbose still
true and skip_children still true, observed through probe formatters whose
outcome encodes those fields: verbosity is not disabled before the call, so
the claimed forcing of all three invariants fails. -/
theorem execute_does_not_disable_verbose :
    execute envVerbose (fun _ c => ⟨c.verbose, false, false⟩) "fn main() {}" none = Except.ok 1 ∧
    execute envVerbose (fun _ c => ⟨false, c.skip_children, false⟩) "fn main() {}" none =
      Except.ok 2 := by
  constructor <;> rfl

/-- C5 (amended): before invoking the formatter, execute forces exactly the
write mode invariant: the invoked configuration has write_mode Plain (the
in-memory round-trip), while skip_children and verbose are not forced and
keep the values produced by configuration resolution. -/
theorem execute_forces_write_mode_only (e : FsEnv) (buffer : String)
    (cfg_path : Option FsPath) (c : Config) (rest : Option FsPath)
    (h : match_cli_path_or_file e
        (cfg_path.bind fun dir =>
          if e.meta dir = MetaResult.isFile then parentDir dir else some dir) e.cwd =
      Except.ok (c, rest)) :
    ∀ run : String → Config → Summary,
      execute e run buffer cfg_path =
        Except.ok (process_summary (run buffer { c with write_mode := WriteMode.Plain })) ∧
      ({ c with write_mode := WriteMode.Plain }).write_mode = WriteMode.Plain ∧
      ({ c with write_mode := WriteMode.Plain }).skip_children = c.skip_children ∧
      ({ c with write_mode := WriteMode.Plain }).verbose = c.verbose := by
  intro run
  refine ⟨?_, rfl, rfl, rfl⟩
  simp [execute, h]

/-- Witness for the amended C5 at a concrete environment whose config file
sets verbose: the formatter observes verbose unchanged. -/
theorem execute_forces_write_mode_only_witness :
    execute envVerbose (fun _ c => ⟨c.verbose, false, false⟩) "x" none = Except.ok 1 :=
  (((execute_forces_write_mode_only envVerbose "x" none
      { Config.default with verbose := true, skip_children := true } (some ["rustfmt.toml"])
      (by rfl)) (fun _ c => ⟨c.verbose, false, false⟩)).1).trans (by rfl)

/-- C10: for every resolved configuration, execute modifies exactly one
field before invoking the formatter: the formatter runs on the record whose
write_mode is Plain and whose every other field, skip_children, verbose,
max_width and hard_tabs, is copied from the resolved configuration. -/
theorem execute_frame_write_mode (e : FsEnv) (buffer : String)
    (cfg_path : Option FsPath) (c : Config) (rest : Option FsPath)
    (h : match_cli_path_or_file e
        (cfg_path.bind fun dir =>
          if e.meta dir = MetaResult.isFile then parentDir dir else some dir) e.cwd =
      Except.ok (c, rest)) :
    ∀ run : String → Config → Summary,
      execute e run buffer cfg_path =
        Except.ok (process_summary (run buffer
          { write_mode := WriteMode.Plain
          , skip_children := c.skip_children
          , verbose := c.verbose
          , max_width := c.max_width
          , hard_tabs := c.hard_tabs })) := by
  intro run
  cases c
  simp [execute, h]

/-- Witness for C10 at a concrete environment: the formatter observes the
resolved skip_children value. -/
theorem execute_frame_write_mode_witness :
    execute envVerbose (fun _ c => ⟨false, c.skip_children, false⟩) "y" none = Except.ok 2 :=
  ((execute_frame_write_mode envVerbose "y" none
      { Config.default with verbose := true, skip_children := true } (some ["rustfmt.toml"])
      (by rfl)) (fun _ c => ⟨false, c.skip_children, false⟩)).trans (by rfl)

/-- C8: format asserts that both the code and the path pointer are
non-null, aborting with the assertion panic on a null pointer instead of
continuing; and decoding a non-null foreign string never fails: every byte
sequence yields an owned string through lossy replacement decoding. -/
theorem format_null_asserts_and_decode_total (e : FsEnv) (run : String → Config → Summary)
    (pathOf : String → FsPath) (code path : Option (List Nat)) :
    (code = none ∨ path = none →
      format e run pathOf code path = Except.error "assertion failed: !c_str.is_null()") ∧
    (∀ bytes : List Nat, c_str_to_safe_string (some bytes) = Except.ok (lossyString bytes)) := by
  constructor
  · rintro (rfl | rfl)
    · cases path <;> simp [format, c_str_to_safe_string]
    · simp [format, c_str_to_safe_string]
  · intro bytes
    rfl

/-- Witness for C8 at a null code pointer with a non-null path pointer. -/
theorem format_null_asserts_witness :
    format envVerbose (fun _ _ => ⟨false, false, false⟩) (fun _ => []) none (some [65]) =
      Except.error "assertion failed: !c_str.is_null()" :=
  (format_null_asserts_and_decode_total envVerbose (fun _ _ => ⟨false, false, false⟩)
    (fun _ => []) none (some [65])).1 (Or.inl rfl)

/-- Scanning for the nul terminator of a nul-free byte sequence consumes
exactly that sequence. -/
theorem takeWhile_append_nul (s : List Nat) (hz : (0 : Nat) ∉ s) :
    (s ++ [0]).takeWhile (fun b => b != 0) = s := by
  induction s with
  | nil => simp
  | cons y ys ih =>
    have hy : (y != 0) = true := by
      simp only [bne_iff_ne, ne_eq]
      intro hyy
      exact hz (by simp [hyy])
    simp only [List.cons_append, List.takeWhile_cons, hy]
    simp [ih (fun hm => hz (List.mem_cons_of_mem _ hm))]

/-- C9: releasing a null pointer is a no-op and never crashes; for a
non-null pointer previously produced by to_c_str, release reconstructs the
exact allocation length used at creation time, the byte length of the
string including the nul terminator. -/
theorem free_reconstructs_allocation (s mem : List Nat)
    (h : to_c_str s = Except.ok mem) :
    free_c_char_mem none = none ∧
    free_c_char_mem (some mem) = some mem.length ∧
    mem.length = s.length + 1 := by
  have h0 : 0 ∉ s ∧ mem = s ++ [0] := by
    by_cases hz : (0 : Nat) ∈ s
    · simp [to_c_str, hz] at h
    · simp [to_c_str, hz] at h
      exact ⟨hz, h.symm⟩
  obtain ⟨hz, rfl⟩ := h0
  exact ⟨rfl, by simp [free_c_char_mem, takeWhile_append_nul s hz], by simp⟩

/-- Witness for C9 at a concrete two-byte allocation. -/
theorem free_reconstructs_allocation_witness :
    free_c_char_mem (some [104, 105, 0]) = some 3 :=
  (free_reconstructs_allocation [104, 105] [104, 105, 0] (by rfl)).2.1

end RustAnaconda
